import Mathlib

/-!
Shallow embedding of `src/automation/api_complete_integration_nrlookup.py`:
the resource-to-service join and enrichment pipeline (identifier normalizer,
meter-category extractor, recursive key finder, resource-service lookup
builder, row extractors, and the memoized New Relic account lookup).

JSON data flowing through the script is modelled by `PyVal`, a model of the
Python values the script manipulates (None, bool, int, str, list, dict with
ordered string keys).  Python truthiness, `or`-defaulting, and `dict.get`
are modelled explicitly.  Dictionaries are association lists; assignment
replaces the value at an existing key in place, else appends.
-/

set_option autoImplicit false

namespace NRLookup

/-- Model of a Python value as handled by the script: None, bool, int,
string, list, or string-keyed dict (insertion ordered). -/
inductive PyVal where
  | none : PyVal
  | bool : Bool → PyVal
  | int : Int → PyVal
  | str : String → PyVal
  | list : List PyVal → PyVal
  | dict : List (String × PyVal) → PyVal

/-- Python truthiness of a `PyVal` (`bool(v)`). -/
def truthy : PyVal → Bool
  | PyVal.none => false
  | PyVal.bool b => b
  | PyVal.int n => decide (n ≠ 0)
  | PyVal.str s => decide (s ≠ "")
  | PyVal.list [] => false
  | PyVal.list (_ :: _) => true
  | PyVal.dict [] => false
  | PyVal.dict (_ :: _) => true

/-- Python `a or b`: `a` when truthy, else `b`. -/
def pyOr (a b : PyVal) : PyVal :=
  if truthy a then a else b

/-- Association-list lookup (model of Python dict indexing / `in`). -/
def aGet {α : Type} : List (String × α) → String → Option α
  | [], _ => Option.none
  | (k, v) :: rest, t => if k = t then some v else aGet rest t

/-- Association-list assignment (model of Python `d[k] = v`): replaces the
value at an existing key in place, else appends the binding at the end. -/
def aSet {α : Type} : List (String × α) → String → α → List (String × α)
  | [], k, v => [(k, v)]
  | (k', v') :: rest, k, v =>
    if k' = k then (k, v) :: rest else (k', v') :: aSet rest k v

/-- Python `d.get(k)`: value at the key, or None.  A `.get` on a non-dict
raises in the source; such runs crash, so the result there is unconstrained
and modelled as None. -/
def pyGet (v : PyVal) (k : String) : PyVal :=
  match v with
  | PyVal.dict l =>
    match aGet l k with
    | some w => w
    | Option.none => PyVal.none
  | _ => PyVal.none

/-- Python `d.get(k, default)`: the default is used only when the key is
absent; a stored None is returned as None. -/
def pyGetD (v : PyVal) (k : String) (d : PyVal) : PyVal :=
  match v with
  | PyVal.dict l =>
    match aGet l k with
    | some w => w
    | Option.none => d
  | _ => d

/-- Iteration over a Python value in a `for` loop.  The source only ever
iterates list values on non-crashing runs (iterating a dict there would feed
string keys to `.get` and raise); non-lists are modelled as empty. -/
def pyAsList : PyVal → List PyVal
  | PyVal.list l => l
  | _ => []

/-- Coercion of a `PyVal` to the string the source reads from it.  The
source only applies string methods to str values on non-crashing runs;
non-strings are modelled as the empty string. -/
def pyToStr : PyVal → String
  | PyVal.str s => s
  | _ => ""

/-! ### Utility functions (source lines 104-159) -/

/-- Characters stripped by Python `str.strip()` with no argument. -/
def isPySpace (c : Char) : Bool :=
  c = ' ' || c = '\t' || c = '\n' || c = '\x0d' || c = '\x0b' || c = '\x0c'

/-- Python `s.strip()` on the character list of a string. -/
def pyStrip (l : List Char) : List Char :=
  ((l.dropWhile isPySpace).reverse.dropWhile isPySpace).reverse

/-- Python `s.lower()` (ASCII, as used on resource identifiers). -/
def pyLower (l : List Char) : List Char :=
  l.map Char.toLower

/-- Source `normalize_resource_id` (lines 136-140): empty/absent input gives
the empty string, otherwise lower-case then trim whitespace. -/
def normalize_resource_id (resource_id : String) : String :=
  if resource_id = "" then ""
  else String.mk (pyStrip (pyLower resource_id.data))

/-- Whether `pat` is a prefix of `l`, by character equality. -/
def startsWithL : List Char → List Char → Bool
  | [], _ => true
  | _ :: _, [] => false
  | a :: as, b :: bs => a = b && startsWithL as bs

/-- Index of the first occurrence of `pat` as a contiguous sublist of `l`
(model of Python `str.find` returning -1 as `Option.none`). -/
def findSub (pat : List Char) : List Char → Option Nat
  | [] => if startsWithL pat [] then some 0 else Option.none
  | c :: rest =>
    if startsWithL pat (c :: rest) then some 0
    else (findSub pat rest).map (fun i => i + 1)

/-- Python `s.split(sep)` for a one-character separator: the empty string
splits to `[""]`, and adjacent separators produce empty segments. -/
def splitSlash : List Char → List (List Char)
  | [] => [[]]
  | c :: rest =>
    if c = '/' then [] :: splitSlash rest
    else
      match splitSlash rest with
      | s :: ss => (c :: s) :: ss
      | [] => [[c]]

/-- The marker searched for by the meter-category extractor. -/
def providersMarker : List Char := "/PROVIDERS/".data

/-- Source `extract_meter_category` (lines 104-134) on character lists:
upper-case the path, find `/PROVIDERS/`, take the remainder of the original
path after the marker, split on `/`, and join the first two segments. -/
def extract_meter_category_list (full_path : List Char) : List Char :=
  match findSub providersMarker (full_path.map Char.toUpper) with
  | Option.none => []
  | some providers_idx =>
    let remaining := full_path.drop (providers_idx + providersMarker.length)
    match splitSlash remaining with
    | p0 :: p1 :: _ => p0 ++ '/' :: p1
    | [p0] => p0
    | [] => []

/-- Source `extract_meter_category` on strings.  A non-str or empty input
returns the empty string (lines 111-112). -/
def extract_meter_category (full_path : String) : String :=
  String.mk (extract_meter_category_list full_path.data)

/-- Lifting of `extract_meter_category` to a `PyVal` argument as called at
line 315: non-string values fail the `isinstance` guard and yield `""`. -/
def extract_meter_category_py : PyVal → String
  | PyVal.str s => extract_meter_category s
  | _ => ""

/-! ### Recursive key finder (source lines 142-159)

`find_first_key` returns the Python value found under the target key, with
Python's `None` (here `PyVal.none`) doubling as the not-found sentinel: a
direct key match returns the stored value even when it is None, while a
recursive result of None is treated as not-found and the search continues. -/

mutual

/-- Source `find_first_key`: depth-first search for the first occurrence of
`target_key` in a nested dict/list structure. -/
def find_first_key (obj : PyVal) (target_key : String) : PyVal :=
  match obj with
  | PyVal.dict l => ffkDict l target_key
  | PyVal.list l => ffkList l target_key
  | _ => PyVal.none

/-- Loop of `find_first_key` over a dict's items: a key equal to the target
returns its value; otherwise recurse into the value, keeping a non-None
result, before moving to the next item. -/
def ffkDict (l : List (String × PyVal)) (target_key : String) : PyVal :=
  match l with
  | [] => PyVal.none
  | (k, v) :: rest =>
    if k = target_key then v
    else
      match find_first_key v target_key with
      | PyVal.none => ffkDict rest target_key
      | r => r

/-- Loop of `find_first_key` over a list's items. -/
def ffkList (l : List PyVal) (target_key : String) : PyVal :=
  match l with
  | [] => PyVal.none
  | x :: rest =>
    match find_first_key x target_key with
    | PyVal.none => ffkList rest target_key
    | r => r

end

mutual

/-- Whether `target_key` occurs as a dict key anywhere inside the nested
structure (specification-side helper for stating absence of the key). -/
def containsKey (obj : PyVal) (target_key : String) : Bool :=
  match obj with
  | PyVal.dict l => ckDict l target_key
  | PyVal.list l => ckList l target_key
  | _ => false

/-- `containsKey` over a dict's items. -/
def ckDict (l : List (String × PyVal)) (target_key : String) : Bool :=
  match l with
  | [] => false
  | (k, v) :: rest =>
    k = target_key || containsKey v target_key || ckDict rest target_key

/-- `containsKey` over a list's items. -/
def ckList (l : List PyVal) (target_key : String) : Bool :=
  match l with
  | [] => false
  | x :: rest => containsKey x target_key || ckList rest target_key

end

/-! ### Resource-service lookup builder (source lines 161-202) -/

/-- Value stored under a normalized resource id by the lookup builder: the
dict literal of lines 194-199 with its four fixed keys. -/
structure LookupEntry where
  app_service_name : PyVal
  app_service_ci_number : PyVal
  resource_type_class : PyVal
  process_state : PyVal

/-- Effective process state of a service (lines 182-183 and 378-379):
the service's own recursively-found value, else the already-defaulted
application-level value, else the empty string, by Python `or`. -/
def resolved_process_state (app_process_state : PyVal) (service : PyVal) : PyVal :=
  pyOr (pyOr (find_first_key service "process_state") app_process_state)
    (PyVal.str "")

/-- Inner loop of the lookup builder over one service's resources
(lines 189-199): derive the resource id preferring `resource_id` over
`path_end_resource_id`, skip falsy ids, and assign the entry under the
normalized id (overwriting any previous entry). -/
def lookupInsertResources (entry : LookupEntry)
    (lookup : List (String × LookupEntry)) (resources : List PyVal) :
    List (String × LookupEntry) :=
  resources.foldl
    (fun lk resource =>
      let resource_id :=
        pyOr (pyOr (pyGet resource "resource_id")
          (pyGet resource "path_end_resource_id")) (PyVal.str "")
      if truthy resource_id then
        aSet lk (normalize_resource_id (pyToStr resource_id)) entry
      else lk)
    lookup

/-- Middle loop of the lookup builder over one application's services
(lines 177-199). -/
def lookupInsertServices (app_process_state : PyVal)
    (lookup : List (String × LookupEntry)) (services : List PyVal) :
    List (String × LookupEntry) :=
  services.foldl
    (fun lk service =>
      let entry : LookupEntry :=
        { app_service_name := pyGetD service "app_service_name" (PyVal.str "")
          app_service_ci_number :=
            pyGetD service "app_service_ci_number" (PyVal.str "")
          resource_type_class :=
            pyGetD service "app_service_sys_class_name" (PyVal.str "")
          process_state := resolved_process_state app_process_state service }
      let resources0 := pyOr (pyGet service "resources") (PyVal.list [])
      let resources :=
        match resources0 with
        | PyVal.dict l => l.map (fun p => p.2)
        | v => pyAsList v
      lookupInsertResources entry lk resources)
    lookup

/-- Source `build_resource_service_lookup` (lines 161-202): one pass over
the apps data building the map from normalized resource id to enrichment
entry, last write wins. -/
def build_resource_service_lookup (apps_data : List PyVal) :
    List (String × LookupEntry) :=
  apps_data.foldl
    (fun lookup app =>
      let app_process_state :=
        pyOr (find_first_key app "process_state") (PyVal.str "")
      let services := pyAsList (pyOr (pyGet app "app_services") (PyVal.list []))
      lookupInsertServices app_process_state lookup services)
    []

/-! ### Row extractors (source lines 299-393) -/

/-- Output resource row: the dict literal of lines 339-355 with its fifteen
fixed keys (the source appends `New Relic Account` later, in the
enrichment phase). -/
structure ResourceRow where
  resource_name : PyVal
  resource_type : PyVal
  ci_number : PyVal
  business_application : PyVal
  meter_category : String
  app_code : PyVal
  app_name : PyVal
  app_cost_center : PyVal
  segment : PyVal
  sub_segment : PyVal
  resource_id : PyVal
  app_service_name : PyVal
  app_service_ci_number : PyVal
  resource_type_class : PyVal
  process_state : PyVal

/-- Loop body of `extract_resources_from_mappings` (lines 310-356): the row
assembled from one `MappingRecord`, with service enrichment fields
defaulting to the empty string on a lookup miss or falsy resource id. -/
def mkResourceRow (resource_lookup : List (String × LookupEntry))
    (mapping : PyVal) : ResourceRow :=
  let ci_number := pyOr (pyGet mapping "path_end_ci_number") (PyVal.str "")
  let resource_id := pyOr (pyGet mapping "path_end_resource_id") (PyVal.str "")
  let meter_category := extract_meter_category_py resource_id
  let enrich : LookupEntry :=
    if truthy resource_id then
      match aGet resource_lookup (normalize_resource_id (pyToStr resource_id)) with
      | some svc_info => svc_info
      | Option.none =>
        ⟨PyVal.str "", PyVal.str "", PyVal.str "", PyVal.str ""⟩
    else ⟨PyVal.str "", PyVal.str "", PyVal.str "", PyVal.str ""⟩
  { resource_name := pyOr (pyGet mapping "path_end_name") (PyVal.str "")
    resource_type := pyOr (pyGet mapping "path_end_sys_class") (PyVal.str "")
    ci_number := ci_number
    business_application := pyOr (pyGet mapping "app_ci_number") (PyVal.str "")
    meter_category := meter_category
    app_code := pyOr (pyGet mapping "app_code") (PyVal.str "")
    app_name := pyOr (pyGet mapping "app_name") (PyVal.str "")
    app_cost_center := pyOr (pyGet mapping "app_cost_center") (PyVal.str "")
    segment := pyOr (pyGet mapping "segment") (PyVal.str "")
    sub_segment := pyOr (pyGet mapping "sub_segment") (PyVal.str "")
    resource_id := pyOr (pyGet mapping "path_end_resource_id") (PyVal.str "")
    app_service_name := enrich.app_service_name
    app_service_ci_number := enrich.app_service_ci_number
    resource_type_class := enrich.resource_type_class
    process_state := enrich.process_state }

/-- Source `extract_resources_from_mappings` (lines 299-361): append one row
per mapping record, in input order (the matched/unmatched counters are
logged only and do not affect the returned rows). -/
def extract_resources_from_mappings (mappings_data : List PyVal)
    (resource_lookup : List (String × LookupEntry)) : List ResourceRow :=
  mappings_data.foldl
    (fun resources mapping => resources ++ [mkResourceRow resource_lookup mapping])
    []

/-- Output service row: the dict literal of lines 381-389 with its seven
fixed keys. -/
structure ServiceRow where
  resource_name : PyVal
  resource_type : PyVal
  ci_number : PyVal
  application_code : PyVal
  environment : PyVal
  parent_ci_number : PyVal
  process_state : PyVal

/-- Loop body of `extract_services_from_apps` (lines 377-390): the row
assembled from one service of an application. -/
def mkServiceRow (app_code app_ci_number app_process_state : PyVal)
    (service : PyVal) : ServiceRow :=
  { resource_name := pyOr (pyGet service "app_service_name") (PyVal.str "")
    resource_type :=
      pyOr (pyGet service "app_service_sys_class_name") (PyVal.str "")
    ci_number := pyOr (pyGet service "app_service_ci_number") (PyVal.str "")
    application_code := app_code
    environment := pyOr (pyGet service "mfc_env") (PyVal.str "")
    parent_ci_number := pyOr app_ci_number (PyVal.str "")
    process_state := resolved_process_state app_process_state service }

/-- Source `extract_services_from_apps` (lines 363-393): one row per
service of each application, in input order. -/
def extract_services_from_apps (apps_data : List PyVal) : List ServiceRow :=
  apps_data.foldl
    (fun all_services app =>
      let app_code := pyOr (pyGet app "mfc_app_code") (PyVal.str "")
      let app_ci_number := pyOr (pyGet app "apm_app_id") (PyVal.str "")
      let app_process_state :=
        pyOr (find_first_key app "process_state") (PyVal.str "")
      let services := pyAsList (pyOr (pyGet app "app_services") (PyVal.list []))
      all_services ++
        services.map (mkServiceRow app_code app_ci_number app_process_state))
    []

/-! ### New Relic account lookup (source lines 399-495)

The network and response parsing are abstracted by an oracle
`net : String → NetResult` giving, per queried name, either the parsed list
of entity account names from a successful request or a transport/parse
failure (`requests.post`, `raise_for_status`, `.json()` and the key chain
of line 462 all raise into the same `except` arm). -/

/-- Outcome of one outbound New Relic entity-search request. -/
inductive NetResult where
  | ok : List String → NetResult
  | err : NetResult

/-- Mutable state of `NewRelicLookup`: the per-run account cache and the
configured API key (`os.getenv` result, falsy when unset or empty). -/
structure NRState where
  account_cache : List (String × String)
  nr_api_key : Option String

/-- Python truthiness of the configured API key. -/
def keyTruthy : Option String → Bool
  | Option.none => false
  | some s => decide (s ≠ "")

/-- Source `NewRelicLookup.get_item_details` (lines 409-475) as a state
transformer.  Returns the classification, the successor state, and the
number of outbound network calls issued (0 or 1).  The no-credential arm
(lines 421-422) returns before the cache write of line 474. -/
def get_item_details (st : NRState) (net : String → NetResult)
    (item_name : String) : String × NRState × Nat :=
  if item_name = "" then ("NA", st, 0)
  else
    match aGet st.account_cache item_name with
    | some cached => (cached, st, 0)
    | Option.none =>
      if keyTruthy st.nr_api_key then
        let account_name :=
          match net item_name with
          | NetResult.ok (e :: _) => e
          | NetResult.ok [] => "NA"
          | NetResult.err => "ERROR"
        (account_name,
          { st with
              account_cache := aSet st.account_cache item_name account_name },
          1)
      else ("ERROR", st, 0)

/-- Modelled from the spec: the Infrastructure-flag derivation of the
latest script revision, which is not present under `src/` (the file there
stops at the sixteen-column output ending in `New Relic Account`).  Per the
spec, the flag is true exactly when the resolved classification equals one
of the two recognized production-account labels. -/
def infrastructure_flag (prod_label_a prod_label_b classification : String) :
    Bool :=
  classification = prod_label_a || classification = prod_label_b

/-! ### Specification-side meter-category extractor

Written from the spec's words for the refinement comparison: locate
`/PROVIDERS/` case-insensitively (comparing characters upper-cased on both
sides, instead of the source's upper-casing of the whole path up front);
if absent return the empty string, otherwise split the original-casing
remainder on `/` and join the first two segments. -/

/-- Case-insensitive prefix test: characters compared upper-cased. -/
def ciStartsWith : List Char → List Char → Bool
  | [], _ => true
  | _ :: _, [] => false
  | a :: as, b :: bs => Char.toUpper a = Char.toUpper b && ciStartsWith as bs

/-- Index of the first case-insensitive occurrence of `pat` in `l`. -/
def ciFind (pat : List Char) : List Char → Option Nat
  | [] => if ciStartsWith pat [] then some 0 else Option.none
  | c :: rest =>
    if ciStartsWith pat (c :: rest) then some 0
    else (ciFind pat rest).map (fun i => i + 1)

/-- The meter-category extractor as the spec words it. -/
def extract_meter_category_spec (full_path : String) : String :=
  match ciFind providersMarker full_path.data with
  | Option.none => ""
  | some i =>
    let remaining := full_path.data.drop (i + providersMarker.length)
    match splitSlash remaining with
    | p0 :: p1 :: _ => String.mk (p0 ++ '/' :: p1)
    | [p0] => String.mk p0
    | [] => ""

/-! ### Two-service collision scenario builders (claim C2) -/

/-- Scenario builder: a resource record carrying only a `resource_id`. -/
def mkResourcePy (rid : String) : PyVal :=
  PyVal.dict [("resource_id", PyVal.str rid)]

/-- Scenario builder: a service with a name, CI number, type, its own
process state, and a single resource. -/
def mkServicePy (nm ci ty ps rid : String) : PyVal :=
  PyVal.dict
    [("app_service_name", PyVal.str nm),
     ("app_service_ci_number", PyVal.str ci),
     ("app_service_sys_class_name", PyVal.str ty),
     ("process_state", PyVal.str ps),
     ("resources", PyVal.list [mkResourcePy rid])]

/-- Scenario builder: an application owning two services. -/
def mkAppPy (s1 s2 : PyVal) : PyVal :=
  PyVal.dict [("app_services", PyVal.list [s1, s2])]

/-! ### Helper lemmas -/

theorem aGet_aSet_self {α : Type} (l : List (String × α)) (k : String) (v : α) :
    aGet (aSet l k v) k = some v := by
  induction l with
  | nil => simp [aSet, aGet]
  | cons p rest ih =>
    obtain ⟨k', v'⟩ := p
    by_cases h : k' = k <;> simp [aSet, aGet, h, ih]

theorem aGet_aSet_ne {α : Type} (l : List (String × α)) (k k' : String) (v : α)
    (h : k' ≠ k) : aGet (aSet l k v) k' = aGet l k' := by
  induction l with
  | nil => simp [aSet, aGet, Ne.symm h]
  | cons p rest ih =>
    obtain ⟨k0, v0⟩ := p
    by_cases h0 : k0 = k
    · subst h0
      have h1 : ¬ (k0 = k') := fun he => h he.symm
      simp [aSet, aGet, h1]
    · simp [aSet, aGet, h0, ih]

theorem foldl_append_eq_map {α β : Type} (f : α → β) :
    ∀ (l : List α) (acc : List β),
      l.foldl (fun r a => r ++ [f a]) acc = acc ++ l.map f := by
  intro l
  induction l with
  | nil => simp
  | cons a rest ih => intro acc; simp [List.foldl_cons, ih]

theorem pyOr_list_cons (x : PyVal) (xs : List PyVal) (v : PyVal) :
    pyOr (PyVal.list (x :: xs)) v = PyVal.list (x :: xs) := rfl

theorem ciStartsWith_eq_startsWithL (pat : List Char)
    (hp : ∀ c ∈ pat, Char.toUpper c = c) :
    ∀ l : List Char, ciStartsWith pat l = startsWithL pat (l.map Char.toUpper) := by
  induction pat with
  | nil => intro l; cases l <;> simp [ciStartsWith, startsWithL]
  | cons a as ih =>
    intro l
    cases l with
    | nil => simp [ciStartsWith, startsWithL]
    | cons b bs =>
      have ha : Char.toUpper a = a := hp a (List.mem_cons_self a as)
      have ih' := ih (fun c hc => hp c (List.mem_cons_of_mem a hc)) bs
      simp [ciStartsWith, startsWithL, ha, ih']

theorem ciFind_eq_findSub (pat : List Char)
    (hp : ∀ c ∈ pat, Char.toUpper c = c) :
    ∀ l : List Char, ciFind pat l = findSub pat (l.map Char.toUpper) := by
  intro l
  induction l with
  | nil => simp [ciFind, findSub, ciStartsWith_eq_startsWithL pat hp]
  | cons c rest ih =>
    simp only [ciFind, findSub, List.map_cons, ciStartsWith_eq_startsWithL pat hp, ih]

theorem providersMarker_upper :
    ∀ c ∈ providersMarker, Char.toUpper c = c := by decide

theorem sizeOf_lt_list {x : PyVal} {l : List PyVal} (h : x ∈ l) :
    sizeOf x < sizeOf (PyVal.list l) := by
  have := List.sizeOf_lt_of_mem h
  simp only [PyVal.list.sizeOf_spec]
  omega

theorem sizeOf_lt_dict {k : String} {v : PyVal} {l : List (String × PyVal)}
    (h : (k, v) ∈ l) : sizeOf v < sizeOf (PyVal.dict l) := by
  have h1 := List.sizeOf_lt_of_mem h
  have h2 : sizeOf (k, v) = 1 + sizeOf k + sizeOf v := rfl
  simp only [PyVal.dict.sizeOf_spec]
  omega

theorem ffkDict_none_of (t : String) (l : List (String × PyVal))
    (hv : ∀ p ∈ l, find_first_key p.2 t = PyVal.none)
    (hk : ∀ p ∈ l, p.1 ≠ t) :
    ffkDict l t = PyVal.none := by
  induction l with
  | nil => simp [ffkDict]
  | cons p rest ih =>
    obtain ⟨k, v⟩ := p
    have h1 : k ≠ t := hk (k, v) (List.mem_cons_self _ _)
    have h2 : find_first_key v t = PyVal.none := hv (k, v) (List.mem_cons_self _ _)
    simp only [ffkDict, if_neg h1, h2]
    exact ih (fun p hp => hv p (List.mem_cons_of_mem _ hp))
      (fun p hp => hk p (List.mem_cons_of_mem _ hp))

theorem ffkList_none_of (t : String) (l : List PyVal)
    (hv : ∀ x ∈ l, find_first_key x t = PyVal.none) :
    ffkList l t = PyVal.none := by
  induction l with
  | nil => simp [ffkList]
  | cons x rest ih =>
    have h2 : find_first_key x t = PyVal.none := hv x (List.mem_cons_self _ _)
    simp only [ffkList, h2]
    exact ih (fun y hy => hv y (List.mem_cons_of_mem _ hy))

theorem ckDict_false_mem {t : String} {l : List (String × PyVal)}
    (h : ckDict l t = false) :
    ∀ p ∈ l, p.1 ≠ t ∧ containsKey p.2 t = false := by
  induction l with
  | nil => intro p hp; cases hp
  | cons q rest ih =>
    obtain ⟨k, v⟩ := q
    simp only [ckDict, Bool.or_eq_false_iff, decide_eq_false_iff_not] at h
    intro p hp
    rcases List.mem_cons.mp hp with rfl | hp'
    · exact ⟨h.1.1, h.1.2⟩
    · exact ih h.2 p hp'

theorem ckList_false_mem {t : String} {l : List PyVal}
    (h : ckList l t = false) :
    ∀ x ∈ l, containsKey x t = false := by
  induction l with
  | nil => intro x hx; cases hx
  | cons y rest ih =>
    simp only [ckList, Bool.or_eq_false_iff] at h
    intro x hx
    rcases List.mem_cons.mp hx with rfl | hx'
    · exact h.1
    · exact ih h.2 x hx'

theorem ffk_none_aux :
    ∀ (n : Nat) (obj : PyVal), sizeOf obj ≤ n →
      ∀ t, containsKey obj t = false → find_first_key obj t = PyVal.none := by
  intro n
  induction n with
  | zero =>
    intro obj hle
    exfalso
    cases obj <;> simp_arith at hle
  | succ n ih =>
    intro obj hle t hck
    cases obj with
    | none => simp [find_first_key]
    | bool b => simp [find_first_key]
    | int m => simp [find_first_key]
    | str s => simp [find_first_key]
    | dict l =>
      simp only [containsKey] at hck
      have hmem := ckDict_false_mem hck
      simp only [find_first_key]
      apply ffkDict_none_of
      · intro p hp
        apply ih p.2 ?_ t (hmem p hp).2
        have h1 : sizeOf p.2 < sizeOf (PyVal.dict l) := by
          obtain ⟨k, v⟩ := p
          exact sizeOf_lt_dict hp
        omega
      · intro p hp
        exact (hmem p hp).1
    | list l =>
      simp only [containsKey] at hck
      have hmem := ckList_false_mem hck
      simp only [find_first_key]
      apply ffkList_none_of
      intro x hx
      apply ih x ?_ t (hmem x hx)
      have h1 : sizeOf x < sizeOf (PyVal.list l) := sizeOf_lt_list hx
      omega

theorem ffk_none_of_not_containsKey (obj : PyVal) (t : String)
    (h : containsKey obj t = false) : find_first_key obj t = PyVal.none :=
  ffk_none_aux (sizeOf obj) obj le_rfl t h

/-! ### Claim theorems -/

/-- Claim C3: for every mappings collection and every lookup mapping,
`extract_resources_from_mappings` produces exactly one output row per input
record, in input order, with no filtering and no deduplication: the output
is the input mapped through the per-record row builder, and its length
equals the input length regardless of lookup hits or misses. -/
theorem c3_one_row_per_mapping :
    ∀ (mappings_data : List PyVal)
      (resource_lookup : List (String × LookupEntry)),
      extract_resources_from_mappings mappings_data resource_lookup
        = mappings_data.map (mkResourceRow resource_lookup) ∧
      (extract_resources_from_mappings mappings_data resource_lookup).length
        = mappings_data.length := by
  intro mappings_data resource_lookup
  have h : extract_resources_from_mappings mappings_data resource_lookup
      = mappings_data.map (mkResourceRow resource_lookup) := by
    unfold extract_resources_from_mappings
    rw [foldl_append_eq_map]
    simp
  exact ⟨h, by rw [h]; simp⟩

/-- Claim C5: the recursive key finder visits a mapping's keys in order,
for each key first checking the key itself against the target (returning
its value on match) and only otherwise recursing depth-first into the
key's value before moving on to the next key; sequence elements are
searched in order.  In particular, searching
`{"a": {"b": "X"}, "process_state": "Y"}` for `"process_state"` returns
`"Y"`. -/
theorem c5_preorder_traversal :
    (∀ t : String, find_first_key (PyVal.dict []) t = PyVal.none) ∧
    (∀ (k : String) (v : PyVal) (rest : List (String × PyVal)) (t : String),
        find_first_key (PyVal.dict ((k, v) :: rest)) t =
          if k = t then v
          else
            match find_first_key v t with
            | PyVal.none => find_first_key (PyVal.dict rest) t
            | r => r) ∧
    (∀ t : String, find_first_key (PyVal.list []) t = PyVal.none) ∧
    (∀ (x : PyVal) (rest : List PyVal) (t : String),
        find_first_key (PyVal.list (x :: rest)) t =
          match find_first_key x t with
          | PyVal.none => find_first_key (PyVal.list rest) t
          | r => r) ∧
    find_first_key
      (PyVal.dict [("a", PyVal.dict [("b", PyVal.str "X")]),
        ("process_state", PyVal.str "Y")]) "process_state" = PyVal.str "Y" := by
  refine ⟨?_, ?_, ?_, ?_, rfl⟩
  · intro t; simp [find_first_key, ffkDict]
  · intro k v rest t; simp only [find_first_key, ffkDict]
  · intro t; simp [find_first_key, ffkList]
  · intro x rest t; simp only [find_first_key, ffkList]

/-- Claim C6: the meter-category extractor equals the spec's description
(case-insensitively locate `/PROVIDERS/`; absent gives the empty string,
otherwise join the first two `/`-separated segments of the original-casing
remainder, one segment standing alone and an empty remainder giving the
empty string), and on the spec's examples it yields
`"Microsoft.Compute/virtualMachines"` and `""`.  Totality in Lean models
that the source never raises. -/
theorem c6_meter_category :
    (∀ s : String, extract_meter_category s = extract_meter_category_spec s) ∧
    extract_meter_category
        "/subscriptions/x/providers/Microsoft.Compute/virtualMachines/vm1"
      = "Microsoft.Compute/virtualMachines" ∧
    extract_meter_category "/subscriptions/x/resourceGroups/rg/vm1" = "" := by
  refine ⟨?_, by decide, by decide⟩
  intro s
  unfold extract_meter_category extract_meter_category_list
    extract_meter_category_spec
  rw [ciFind_eq_findSub providersMarker providersMarker_upper]
  cases h : findSub providersMarker (s.data.map Char.toUpper) with
  | none => rfl
  | some i =>
    cases hs : splitSlash (s.data.drop (i + providersMarker.length)) with
    | nil => simp only [hs]
    | cons p0 tail => cases tail <;> simp only [hs]

/-- Claim C8, corrected counterexample: the structure
`{"process_state": None}` legitimately stores the value `None` under the
key, yet the finder returns `None` for it — exactly the not-found
sentinel, so this stored value is mistaken for absence, contradicting the
claim that the sentinel is distinct from every storable value. -/
theorem c8_counterexample :
    containsKey (PyVal.dict [("process_state", PyVal.none)]) "process_state"
        = true ∧
    find_first_key (PyVal.dict [("process_state", PyVal.none)]) "process_state"
        = PyVal.none ∧
    find_first_key (PyVal.dict []) "process_state" = PyVal.none :=
  ⟨rfl, rfl, rfl⟩

/-- Claim C8 as amended: on a structure with no occurrence of the target
key the finder returns the sentinel `None`, and the sentinel is distinct
from every value of any other shape — including the false-like and empty
values `""`, `False`, `0`, `[]` and `{}` — but not from a stored `None`
(Python's `None` doubles as the sentinel). -/
theorem c8_not_found_sentinel :
    (∀ (obj : PyVal) (t : String), containsKey obj t = false →
        find_first_key obj t = PyVal.none) ∧
    (∀ s : String, PyVal.none ≠ PyVal.str s) ∧
    (∀ b : Bool, PyVal.none ≠ PyVal.bool b) ∧
    (∀ n : Int, PyVal.none ≠ PyVal.int n) ∧
    (∀ l : List PyVal, PyVal.none ≠ PyVal.list l) ∧
    (∀ l : List (String × PyVal), PyVal.none ≠ PyVal.dict l) := by
  refine ⟨ffk_none_of_not_containsKey, ?_, ?_, ?_, ?_, ?_⟩ <;>
    intro x h <;> exact PyVal.noConfusion h

/-- Witness for C8: a concrete structure without the key, on which the
finder returns the sentinel. -/
theorem c8_witness :
    containsKey (PyVal.dict [("a", PyVal.str "x")]) "process_state" = false ∧
    find_first_key (PyVal.dict [("a", PyVal.str "x")]) "process_state"
      = PyVal.none :=
  ⟨rfl, c8_not_found_sentinel.1 (PyVal.dict [("a", PyVal.str "x")])
    "process_state" rfl⟩

/-- Claim C1, corrected counterexample: in a run with no credential
configured, calling the resolver twice with the same exact non-empty name
issues zero outbound network calls in total, not exactly one, and nothing
is cached — so the claim's "for every run" quantification fails on
credential-less runs. -/
theorem c1_counterexample :
    ("vm1" : String) ≠ "" ∧
    (get_item_details (NRState.mk [] Option.none) (fun _ => NetResult.err)
          "vm1").2.2 +
        (get_item_details
            (get_item_details (NRState.mk [] Option.none)
              (fun _ => NetResult.err) "vm1").2.1
            (fun _ => NetResult.err) "vm1").2.2 = 0 ∧
    (0 : Nat) ≠ 1 :=
  ⟨by decide, rfl, by decide⟩

/-- Claim C1 as amended: in every run with a credential configured, the
resolver's cache is keyed by the exact raw input name — after a first call
with an uncached non-empty name, the cache maps exactly that name to the
result and no other key changes — the first call issues exactly one
network call, and a repeated call with the same exact name returns the
cached classification, leaves the state unchanged, and issues no further
network call. -/
theorem c1_memoized_lookup :
    ∀ (st : NRState) (net : String → NetResult) (name : String),
      keyTruthy st.nr_api_key = true → name ≠ "" →
      aGet st.account_cache name = Option.none →
      (get_item_details st net name).2.2 = 1 ∧
      aGet (get_item_details st net name).2.1.account_cache name
        = some (get_item_details st net name).1 ∧
      (∀ other : String, other ≠ name →
        aGet (get_item_details st net name).2.1.account_cache other
          = aGet st.account_cache other) ∧
      (get_item_details (get_item_details st net name).2.1 net name).1
        = (get_item_details st net name).1 ∧
      (get_item_details (get_item_details st net name).2.1 net name).2.1
        = (get_item_details st net name).2.1 ∧
      (get_item_details (get_item_details st net name).2.1 net name).2.2
        = 0 := by
  intro st net name hkey hname hmiss
  obtain ⟨acct, hacct⟩ : ∃ a, (match net name with
      | NetResult.ok (e :: _) => e
      | NetResult.ok [] => "NA"
      | NetResult.err => "ERROR") = a := ⟨_, rfl⟩
  have h1 : get_item_details st net name
      = (acct,
          { st with account_cache := aSet st.account_cache name acct }, 1) := by
    simp only [get_item_details, if_neg hname, hmiss, hkey, if_true, hacct]
  have h2 : get_item_details (get_item_details st net name).2.1 net name
      = (acct, (get_item_details st net name).2.1, 0) := by
    rw [h1]
    simp only [get_item_details, if_neg hname, aGet_aSet_self]
  refine ⟨by rw [h1], ?_, ?_, ?_, ?_, ?_⟩
  · rw [h1]
    exact aGet_aSet_self st.account_cache name acct
  · intro other hother
    rw [h1]
    exact aGet_aSet_ne st.account_cache name other acct hother
  · rw [h2, h1]
  · rw [h2]
  · rw [h2]

/-- Witness for C1: with a configured key, a fresh cache, and a network
double answering `AccountA`, the first lookup of `vm1` makes one call and
the repeated lookup makes none. -/
theorem c1_witness :
    ("vm1" : String) ≠ "" ∧
    (get_item_details (NRState.mk [] (some "KEY"))
        (fun _ => NetResult.ok ["AccountA"]) "vm1").2.2 = 1 ∧
    (get_item_details
        (get_item_details (NRState.mk [] (some "KEY"))
          (fun _ => NetResult.ok ["AccountA"]) "vm1").2.1
        (fun _ => NetResult.ok ["AccountA"]) "vm1").2.2 = 0 :=
  ⟨by decide,
    (c1_memoized_lookup (NRState.mk [] (some "KEY"))
      (fun _ => NetResult.ok ["AccountA"]) "vm1" (by decide) (by decide)
      rfl).1,
    (c1_memoized_lookup (NRState.mk [] (some "KEY"))
      (fun _ => NetResult.ok ["AccountA"]) "vm1" (by decide) (by decide)
      rfl).2.2.2.2.2⟩

/-- Claim C7, corrected counterexample: with no credential configured and
the non-empty name `vm1` not in the cache, the resolver returns the
`ERROR` sentinel with no network call, but — contrary to the claim — the
result is not stored: the cache after the call still has no entry for
`vm1` (the early return at lines 421-422 precedes the cache write of line
474). -/
theorem c7_counterexample :
    keyTruthy (NRState.mk [] Option.none).nr_api_key = false ∧
    ("vm1" : String) ≠ "" ∧
    aGet (NRState.mk [] Option.none).account_cache "vm1" = Option.none ∧
    get_item_details (NRState.mk [] Option.none) (fun _ => NetResult.err)
        "vm1" = ("ERROR", NRState.mk [] Option.none, 0) ∧
    aGet (get_item_details (NRState.mk [] Option.none)
        (fun _ => NetResult.err) "vm1").2.1.account_cache "vm1"
      = Option.none :=
  ⟨rfl, by decide, rfl, rfl, rfl⟩

/-- Claim C7 as amended: when no credential is configured, the resolver,
called with a non-empty name not already in the cache, returns the
`ERROR` sentinel without issuing a network call and without modifying the
cache — the state is returned unchanged, so subsequent identical calls
take the same no-network early return. -/
theorem c7_disabled_lookup :
    ∀ (st : NRState) (net : String → NetResult) (name : String),
      keyTruthy st.nr_api_key = false → name ≠ "" →
      aGet st.account_cache name = Option.none →
      get_item_details st net name = ("ERROR", st, 0) := by
  intro st net name hkey hname hmiss
  simp [get_item_details, if_neg hname, hmiss, hkey]

/-- Witness for C7: concrete credential-less state and name. -/
theorem c7_witness :
    keyTruthy (NRState.mk [] Option.none).nr_api_key = false ∧
    ("vm2" : String) ≠ "" ∧
    get_item_details (NRState.mk [] Option.none) (fun _ => NetResult.err)
        "vm2" = ("ERROR", NRState.mk [] Option.none, 0) :=
  ⟨rfl, by decide,
    c7_disabled_lookup (NRState.mk [] Option.none) (fun _ => NetResult.err)
      "vm2" rfl (by decide) rfl⟩

/-- Claim C10: when a credential is configured and the outbound lookup for
an uncached non-empty name fails with a transport or parse error, the
`ERROR` result is stored in the cache under that exact name, and the
repeated call returns `ERROR` from the cache with no further network call
and no state change — a failed name is never retried within a run. -/
theorem c10_error_result_cached :
    ∀ (st : NRState) (net : String → NetResult) (name : String),
      keyTruthy st.nr_api_key = true → name ≠ "" →
      aGet st.account_cache name = Option.none →
      net name = NetResult.err →
      get_item_details st net name
        = ("ERROR",
            { st with account_cache := aSet st.account_cache name "ERROR" },
            1) ∧
      aGet (get_item_details st net name).2.1.account_cache name
        = some "ERROR" ∧
      get_item_details (get_item_details st net name).2.1 net name
        = ("ERROR", (get_item_details st net name).2.1, 0) := by
  intro st net name hkey hname hmiss hnet
  have h1 : get_item_details st net name
      = ("ERROR",
          { st with account_cache := aSet st.account_cache name "ERROR" },
          1) := by
    simp only [get_item_details, if_neg hname, hmiss, hkey, if_true, hnet]
  refine ⟨h1, ?_, ?_⟩
  · rw [h1]
    exact aGet_aSet_self st.account_cache name "ERROR"
  · rw [h1]
    simp only [get_item_details, if_neg hname, aGet_aSet_self]

/-- Witness for C10: concrete configured state and a failing network
double. -/
theorem c10_witness :
    keyTruthy (NRState.mk [] (some "KEY")).nr_api_key = true ∧
    ("vm3" : String) ≠ "" ∧
    get_item_details (NRState.mk [] (some "KEY")) (fun _ => NetResult.err)
        "vm3"
      = ("ERROR", NRState.mk [("vm3", "ERROR")] (some "KEY"), 1) :=
  ⟨rfl, by decide,
    (c10_error_result_cached (NRState.mk [] (some "KEY"))
      (fun _ => NetResult.err) "vm3" rfl (by decide) rfl rfl).1⟩

/-- Claim C2: when two services of an application each own one resource and
the two resource identifiers normalize to the same key (differing only by
case or surrounding whitespace), the lookup built from that application has
exactly one entry, under the normalized identifier, and it carries the
name, CI number, type, and process state of the service processed last —
silently, with no conflict reported (the function returns normally). -/
theorem c2_last_write_wins :
    ∀ (n1 c1 t1 p1 r1 n2 c2 t2 p2 r2 : String),
      r1 ≠ "" → r2 ≠ "" → p1 ≠ "" → p2 ≠ "" →
      normalize_resource_id r1 = normalize_resource_id r2 →
      build_resource_service_lookup
          [mkAppPy (mkServicePy n1 c1 t1 p1 r1) (mkServicePy n2 c2 t2 p2 r2)]
        = [(normalize_resource_id r2,
            ⟨PyVal.str n2, PyVal.str c2, PyVal.str t2, PyVal.str p2⟩)] := by
  intro n1 c1 t1 p1 r1 n2 c2 t2 p2 r2 hr1 hr2 hp1 hp2 hnorm
  have h0 : build_resource_service_lookup
      [mkAppPy (mkServicePy n1 c1 t1 p1 r1) (mkServicePy n2 c2 t2 p2 r2)]
      = (let aps := pyOr (PyVal.str p1) (PyVal.str "")
         let e1 : LookupEntry :=
           ⟨PyVal.str n1, PyVal.str c1, PyVal.str t1,
             pyOr (pyOr (PyVal.str p1) aps) (PyVal.str "")⟩
         let e2 : LookupEntry :=
           ⟨PyVal.str n2, PyVal.str c2, PyVal.str t2,
             pyOr (pyOr (PyVal.str p2) aps) (PyVal.str "")⟩
         let rid1 := pyOr (pyOr (PyVal.str r1) PyVal.none) (PyVal.str "")
         let rid2 := pyOr (pyOr (PyVal.str r2) PyVal.none) (PyVal.str "")
         let lk1 :=
           if truthy rid1 then
             aSet [] (normalize_resource_id (pyToStr rid1)) e1
           else []
         if truthy rid2 then
           aSet lk1 (normalize_resource_id (pyToStr rid2)) e2
         else lk1) := rfl
  have hor : ∀ (s : String), s ≠ "" → ∀ v : PyVal,
      pyOr (PyVal.str s) v = PyVal.str s := by
    intro s hs v
    simp [pyOr, truthy, hs]
  have htr : ∀ (s : String), s ≠ "" → truthy (PyVal.str s) = true := by
    intro s hs
    simp [truthy, hs]
  rw [h0]
  simp only [hor p1 hp1, hor p2 hp2, hor r1 hr1, hor r2 hr2,
    htr r1 hr1, htr r2 hr2, if_true, pyToStr]
  rw [hnorm]
  simp [aSet]

/-- Witness for C2: identifiers `VM-01` and ` vm-01 ` differ only by case
and whitespace; the single entry reflects the second service. -/
theorem c2_witness :
    ("VM-01" : String) ≠ "" ∧ (" vm-01 " : String) ≠ "" ∧
    ("Retired" : String) ≠ "" ∧ ("Operational" : String) ≠ "" ∧
    normalize_resource_id "VM-01" = normalize_resource_id " vm-01 " ∧
    build_resource_service_lookup
        [mkAppPy (mkServicePy "svcA" "CI001" "TypeA" "Retired" "VM-01")
          (mkServicePy "svcB" "CI002" "TypeB" "Operational" " vm-01 ")]
      = [(normalize_resource_id " vm-01 ",
          ⟨PyVal.str "svcB", PyVal.str "CI002", PyVal.str "TypeB",
            PyVal.str "Operational"⟩)] :=
  ⟨by decide, by decide, by decide, by decide, by decide,
    c2_last_write_wins "svcA" "CI001" "TypeA" "Retired" "VM-01"
      "svcB" "CI002" "TypeB" "Operational" " vm-01 "
      (by decide) (by decide) (by decide) (by decide) (by decide)⟩

/-- Claim C4, corrected counterexample: the service's own nested
process-state value is present — the finder returns `""`, not the
not-found sentinel `None` — yet the service's output row carries the
application's value `Active` instead of the service's own (empty) value,
because the source's `or`-chain treats a present-but-falsy value as
absent. -/
theorem c4_counterexample :
    find_first_key (PyVal.dict [("process_state", PyVal.str "")])
        "process_state" = PyVal.str "" ∧
    PyVal.str "" ≠ PyVal.none ∧
    (extract_services_from_apps
        [PyVal.dict [("process_state", PyVal.str "Active"),
          ("app_services",
            PyVal.list [PyVal.dict [("process_state", PyVal.str "")]])]]).map
        (fun r => r.process_state) = [PyVal.str "Active"] ∧
    ("Active" : String) ≠ "" :=
  ⟨rfl, fun h => PyVal.noConfusion h, rfl, by decide⟩

/-- Claim C4 as amended: for an application and each of its services, the
process state placed in the service's output row — and, identically, in the
lookup entry written for the service's resources by the lookup builder — is
the service's own nested process-state value when that value is present and
truthy (non-empty), otherwise the application's recursively-resolved value
when that is truthy, otherwise the empty string; the field is always
present in the row and in the entry (every `ServiceRow` and `LookupEntry`
carries it by construction). -/
theorem c4_process_state_hierarchy :
    ∀ (app svc : PyVal),
      pyGet app "app_services" = PyVal.list [svc] →
      ∃ row : ServiceRow,
        extract_services_from_apps [app] = [row] ∧
        (truthy (find_first_key svc "process_state") = true →
          row.process_state = find_first_key svc "process_state") ∧
        (truthy (find_first_key svc "process_state") = false →
          truthy (find_first_key app "process_state") = true →
          row.process_state = find_first_key app "process_state") ∧
        (truthy (find_first_key svc "process_state") = false →
          truthy (find_first_key app "process_state") = false →
          row.process_state = PyVal.str "") ∧
        (∀ res : PyVal,
          pyGet svc "resources" = PyVal.list [res] →
          truthy (pyOr (pyOr (pyGet res "resource_id")
            (pyGet res "path_end_resource_id")) (PyVal.str "")) = true →
          build_resource_service_lookup [app]
            = [(normalize_resource_id (pyToStr (pyOr (pyOr
                  (pyGet res "resource_id")
                  (pyGet res "path_end_resource_id")) (PyVal.str ""))),
                ⟨pyGetD svc "app_service_name" (PyVal.str ""),
                  pyGetD svc "app_service_ci_number" (PyVal.str ""),
                  pyGetD svc "app_service_sys_class_name" (PyVal.str ""),
                  row.process_state⟩)]) := by
  intro app svc happ
  refine ⟨mkServiceRow (pyOr (pyGet app "mfc_app_code") (PyVal.str ""))
      (pyOr (pyGet app "apm_app_id") (PyVal.str ""))
      (pyOr (find_first_key app "process_state") (PyVal.str "")) svc,
    ?_, ?_, ?_, ?_, ?_⟩
  · unfold extract_services_from_apps
    simp only [List.foldl_cons, List.foldl_nil, happ]
    simp [pyOr, truthy, pyAsList]
  · intro htr
    simp [mkServiceRow, resolved_process_state, pyOr, htr]
  · intro hsf haf
    simp [mkServiceRow, resolved_process_state, pyOr, hsf, haf]
  · intro hsf haf
    simp [mkServiceRow, resolved_process_state, pyOr, hsf, haf]
  · intro res hres hrid
    unfold build_resource_service_lookup lookupInsertServices
      lookupInsertResources
    simp only [List.foldl_cons, List.foldl_nil, happ, hres, pyOr_list_cons,
      pyAsList]
    simp only [hrid, if_true, mkServiceRow]
    simp [aSet]

/-- Witness for C4: a one-service application whose service carries its own
truthy process state and one resource, so both the service-row and the
lookup-entry placements are exercised. -/
theorem c4_witness :
    pyGet (PyVal.dict [("app_services",
        PyVal.list [mkServicePy "svcW" "CI9" "TypeW" "Operational" "VM-9"])])
        "app_services"
      = PyVal.list [mkServicePy "svcW" "CI9" "TypeW" "Operational" "VM-9"] ∧
    (∃ row : ServiceRow,
      extract_services_from_apps
          [PyVal.dict [("app_services",
            PyVal.list
              [mkServicePy "svcW" "CI9" "TypeW" "Operational" "VM-9"])]]
        = [row] ∧
      (truthy (find_first_key
            (mkServicePy "svcW" "CI9" "TypeW" "Operational" "VM-9")
            "process_state") = true →
        row.process_state = find_first_key
          (mkServicePy "svcW" "CI9" "TypeW" "Operational" "VM-9")
          "process_state") ∧
      (truthy (find_first_key
            (mkServicePy "svcW" "CI9" "TypeW" "Operational" "VM-9")
            "process_state") = false →
        truthy (find_first_key
            (PyVal.dict [("app_services",
              PyVal.list
                [mkServicePy "svcW" "CI9" "TypeW" "Operational" "VM-9"])])
            "process_state") = true →
        row.process_state = find_first_key
          (PyVal.dict [("app_services",
            PyVal.list
              [mkServicePy "svcW" "CI9" "TypeW" "Operational" "VM-9"])])
          "process_state") ∧
      (truthy (find_first_key
            (mkServicePy "svcW" "CI9" "TypeW" "Operational" "VM-9")
            "process_state") = false →
        truthy (find_first_key
            (PyVal.dict [("app_services",
              PyVal.list
                [mkServicePy "svcW" "CI9" "TypeW" "Operational" "VM-9"])])
            "process_state") = false →
        row.process_state = PyVal.str "") ∧
      (∀ res : PyVal,
        pyGet (mkServicePy "svcW" "CI9" "TypeW" "Operational" "VM-9")
            "resources" = PyVal.list [res] →
        truthy (pyOr (pyOr (pyGet res "resource_id")
          (pyGet res "path_end_resource_id")) (PyVal.str "")) = true →
        build_resource_service_lookup
            [PyVal.dict [("app_services",
              PyVal.list
                [mkServicePy "svcW" "CI9" "TypeW" "Operational" "VM-9"])]]
          = [(normalize_resource_id (pyToStr (pyOr (pyOr
                (pyGet res "resource_id")
                (pyGet res "path_end_resource_id")) (PyVal.str ""))),
              ⟨pyGetD (mkServicePy "svcW" "CI9" "TypeW" "Operational" "VM-9")
                  "app_service_name" (PyVal.str ""),
                pyGetD (mkServicePy "svcW" "CI9" "TypeW" "Operational" "VM-9")
                  "app_service_ci_number" (PyVal.str ""),
                pyGetD (mkServicePy "svcW" "CI9" "TypeW" "Operational" "VM-9")
                  "app_service_sys_class_name" (PyVal.str ""),
                row.process_state⟩)])) :=
  ⟨rfl,
    c4_process_state_hierarchy
      (PyVal.dict [("app_services",
        PyVal.list [mkServicePy "svcW" "CI9" "TypeW" "Operational" "VM-9"])])
      (mkServicePy "svcW" "CI9" "TypeW" "Operational" "VM-9") rfl⟩

/-- Claim C9 (the Infrastructure flag of the latest revision, modelled from
the spec): the flag is true exactly when the resolved classification
equals one of the two recognized production-account labels, and false for
any other classification, including the `NA` and `ERROR` sentinels
(assuming, as the spec implies, that the labels differ from the
sentinels). -/
theorem c9_infrastructure_flag :
    ∀ (la lb cls : String),
      la ≠ "NA" → la ≠ "ERROR" → lb ≠ "NA" → lb ≠ "ERROR" →
      (infrastructure_flag la lb cls = true ↔ (cls = la ∨ cls = lb)) ∧
      infrastructure_flag la lb "NA" = false ∧
      infrastructure_flag la lb "ERROR" = false := by
  intro la lb cls hna1 herr1 hna2 herr2
  refine ⟨?_, ?_, ?_⟩
  · simp [infrastructure_flag]
  · simp [infrastructure_flag, Ne.symm hna1, Ne.symm hna2]
  · simp [infrastructure_flag, Ne.symm herr1, Ne.symm herr2]

/-- Witness for C9: two concrete production labels; a matching
classification yields true, and the sentinels yield false. -/
theorem c9_witness :
    ("Production-East" : String) ≠ "NA" ∧
    ("Production-East" : String) ≠ "ERROR" ∧
    ("Production-West" : String) ≠ "NA" ∧
    ("Production-West" : String) ≠ "ERROR" ∧
    (infrastructure_flag "Production-East" "Production-West" "Production-East"
        = true ↔
      (("Production-East" : String) = "Production-East" ∨
        ("Production-East" : String) = "Production-West")) ∧
    infrastructure_flag "Production-East" "Production-West" "NA" = false ∧
    infrastructure_flag "Production-East" "Production-West" "ERROR" = false :=
  ⟨by decide, by decide, by decide, by decide,
    (c9_infrastructure_flag "Production-East" "Production-West"
      "Production-East" (by decide) (by decide) (by decide) (by decide)).1,
    (c9_infrastructure_flag "Production-East" "Production-West"
      "Production-East" (by decide) (by decide) (by decide) (by decide)).2.1,
    (c9_infrastructure_flag "Production-East" "Production-West"
      "Production-East" (by decide) (by decide) (by decide) (by decide)).2.2⟩

end NRLookup
